import Mathlib

/-!
Verification development for the edh-ai repository (TypeScript).

Shallow embedding of the three core components the claims concern:

* the card catalog store (`packages/validator/src/database.ts`:
  `CardDatabase.insertCard`, `getCard`, `getCardCount`, the `cards` table
  schema),
* the bulk importer (`importCards` script: `importCardsFromJson` with its
  whole-array branch and `streamJsonImport`),
* the EDH rule evaluator (`packages/validator/src/edhValidator.ts`:
  `EDH_RULES` entries `deck_size`, `singleton`, `commander_check`, plus the
  helpers `isBasicLand`, `allowsMultipleCopies`, `isLegalCommander`).

Modelling conventions, each justified by the source:

* SQLite's `cards` table is a `List DbRow` in rowid (= insertion) order;
  `SELECT ... WHERE LOWER(name) = LOWER(?)` with `db.get` returns the first
  row of the scan in that order.  The schema declares `name TEXT PRIMARY KEY`
  with the default BINARY collation, so `INSERT OR REPLACE` conflicts only on
  byte-equal names; the replacing row gets a fresh rowid (end of scan order).
* The JSON text stored in the `colors` / `color_identity` / `legalities`
  TEXT columns is modelled by its parse tree (`Json` below): the external
  `JSON.stringify` is injective on the values the code writes and
  `JSON.parse` is its inverse, so nothing about this repository's code is
  lost by working at the tree level.  The display-only columns `image_uris`
  and `card_faces` are omitted: no claim concerns them, and the sibling copy
  of the store (`src/database.ts`) does not have them at all.
* TypeScript optional string fields that the code only ever consumes through
  JS falsiness (`!card.type_line`, `card.type_line || ''`, `card.rarity
  || ''`) are modelled as `String` with `""` standing for both "missing" and
  "empty"; this is exactly the conflation the code itself performs.
* `LOWER` in SQLite and `toLowerCase` in JS agree on ASCII, the only
  characters the claims exercise; `lowerChar` below is that ASCII lowering.
* JS numbers are exact on the values involved: `stats.size / (1024 * 1024)`
  divides an integer below 2^53 by a power of two, which is exact in binary
  floating point, so the size comparison is modelled over `ℚ`.
* The rule checks receive the lookup capability as
  `Option (String → Option EdHCard)`, matching the optional `cardDb`
  parameter whose only use is `await cardDb.getCard(name)`.
* JS `Record<string, number>` objects (`cardCounts`) are association lists
  in insertion order with pairwise-distinct keys, matching
  `Object.entries` / `Object.keys` / `Object.values` iteration.
-/

/-- JSON parse trees, standing for the JSON text stored in the TEXT columns.
Only the constructors the embedded columns use are needed. -/
inductive Json where
  | jstr : String → Json
  | jarr : List Json → Json
  | jobj : List (String × Json) → Json

/-- ASCII lowercasing of one character, the common semantics of SQLite
`LOWER` and JS `toLowerCase` on the ASCII range. -/
def lowerChar (c : Char) : Char :=
  if 'A' ≤ c ∧ c ≤ 'Z' then Char.ofNat (c.toNat + 32) else c

/-- ASCII lowercasing of a string. -/
def lowerStr (s : String) : String := ⟨s.data.map lowerChar⟩

/-- JS `String.prototype.includes`: substring test, here on the character
sequence (all strings involved are ASCII). -/
def strIncludes (s pat : String) : Bool := decide (pat.data <:+: s.data)

/-- Card record as the validator sees it (`EdHCard` in `types.ts`).
`type_line = ""` models both a missing and an empty type line (JS falsy);
likewise for `rarity`.  `legalities` is an association list because JS
objects preserve insertion order. -/
structure EdHCard where
  name : String
  type_line : String
  colors : List String
  color_identity : List String
  rarity : String
  legalities : List (String × String)
  mana_cost : Option String
  cmc : Option ℚ
deriving DecidableEq

/-- Row of the `cards` table (`DatabaseCard` in `database.ts`): the three
JSON columns hold serialized text, modelled by its parse tree. -/
structure DbRow where
  name : String
  type_line : String
  colors : Json
  color_identity : Json
  rarity : String
  legalities : Json
  mana_cost : Option String
  cmc : Option ℚ

/-- Serialization `JSON.stringify` of a string array, at tree level. -/
def stringifyStrArr (l : List String) : Json := .jarr (l.map .jstr)

/-- Decode a JSON array element list as a string list. -/
def jsonToStrList : List Json → Option (List String)
  | [] => some []
  | .jstr s :: rest => (jsonToStrList rest).map (s :: ·)
  | _ => none

/-- Deserialization `JSON.parse` of a string array, at tree level. -/
def parseStrArr : Json → Option (List String)
  | .jarr xs => jsonToStrList xs
  | _ => none

/-- Serialization `JSON.stringify` of a string-valued object, at tree
level. -/
def stringifyStrObj (l : List (String × String)) : Json :=
  .jobj (l.map fun p => (p.1, .jstr p.2))

/-- Decode JSON object members as string-valued pairs. -/
def jsonToStrPairs : List (String × Json) → Option (List (String × String))
  | [] => some []
  | (k, .jstr v) :: rest => (jsonToStrPairs rest).map ((k, v) :: ·)
  | _ => none

/-- Deserialization `JSON.parse` of a string-valued object, at tree level. -/
def parseStrObj : Json → Option (List (String × String))
  | .jobj xs => jsonToStrPairs xs
  | _ => none

/-- Row built by `insertCard` from a card: `card.type_line || ''` and
`card.rarity || ''` are the identity under the `""`-for-missing convention;
the list and object fields are serialized (`JSON.stringify(card.colors ||
[])` etc.; the `|| []` / `|| ...` guards are likewise the identity here). -/
def mkRow (c : EdHCard) : DbRow :=
  { name := c.name
    type_line := c.type_line
    colors := stringifyStrArr c.colors
    color_identity := stringifyStrArr c.color_identity
    rarity := c.rarity
    legalities := stringifyStrObj c.legalities
    mana_cost := c.mana_cost
    cmc := c.cmc }

/-- Card rebuilt by `getCard` from a row: JSON columns are parsed back into
structured values (`JSON.parse(row.colors)` etc.).  Rows written by
`insertCard` always decode, so the `getD` defaults are never reached on
reachable stores. -/
def rowToCard (r : DbRow) : EdHCard :=
  { name := r.name
    type_line := r.type_line
    colors := (parseStrArr r.colors).getD []
    color_identity := (parseStrArr r.color_identity).getD []
    rarity := r.rarity
    legalities := (parseStrObj r.legalities).getD []
    mana_cost := r.mana_cost
    cmc := r.cmc }

/-- Single upsert (`CardDatabase.insertCard`): `INSERT OR REPLACE INTO cards
...` keyed by the BINARY-collated `name` PRIMARY KEY, so it deletes rows with
the byte-equal name and inserts a fresh row (new rowid, end of scan
order). -/
def insertCard (card : EdHCard) (db : List DbRow) : List DbRow :=
  db.filter (fun r => decide (r.name ≠ card.name)) ++ [mkRow card]

/-- Lookup (`CardDatabase.getCard`): `SELECT * FROM cards WHERE LOWER(name) =
LOWER(?)` via `db.get`, which yields the first matching row of the table scan
in rowid order, parsed into a structured card. -/
def getCard (db : List DbRow) (name : String) : Option EdHCard :=
  (db.find? (fun r => decide (lowerStr r.name = lowerStr name))).map rowToCard

/-- Count (`CardDatabase.getCardCount`): `SELECT COUNT(*) FROM cards`. -/
def getCardCount (db : List DbRow) : Nat := db.length

/-- Violation severity (`RuleViolation.severity` in `types.ts`). -/
inductive Severity where
  | error
  | warning
deriving DecidableEq

/-- Rule violation (`RuleViolation` in `types.ts`). -/
structure RuleViolation where
  ruleId : String
  ruleName : String
  message : String
  severity : Severity
  affectedCards : Option (List String)
deriving DecidableEq

/-- Names allowed in multiples (`allowsMultipleCopies` in
`edhValidator.ts`). -/
def multipleAllowed : List String :=
  ["relentless rats", "rat colony", "persistent petitioners",
   "shadowborn apostle", "thrumming stone"]

/-- Helper `isBasicLand`: guard on a falsy `type_line`, then check that the
lowercased type line contains both markers. -/
def isBasicLand (c : EdHCard) : Bool :=
  if c.type_line = "" then false
  else strIncludes (lowerStr c.type_line) "basic" &&
    strIncludes (lowerStr c.type_line) "land"

/-- Helper `allowsMultipleCopies`: lowercased name is on the fixed list. -/
def allowsMultipleCopies (c : EdHCard) : Bool :=
  multipleAllowed.contains (lowerStr c.name)

/-- Helper `isLegalCommander`: legendary and (creature or planeswalker). -/
def isLegalCommander (c : EdHCard) : Bool :=
  if c.type_line = "" then false
  else strIncludes (lowerStr c.type_line) "legendary" &&
    (strIncludes (lowerStr c.type_line) "creature" ||
      strIncludes (lowerStr c.type_line) "planeswalker")

/-- Violation built by the `deck_size` rule for a failing total. -/
def deckSizeViolation (totalCards : Nat) : RuleViolation :=
  { ruleId := "deck_size"
    ruleName := "Deck Size"
    message := "Deck must contain exactly 100 cards. Found " ++
      toString totalCards ++ " cards."
    severity := .error
    affectedCards := none }

/-- The `deck_size` rule check: sum `Object.values(cardCounts)` and report
unless it is exactly 100. -/
def deckSizeCheck (cardCounts : List (String × Nat)) : List RuleViolation :=
  let totalCards := (cardCounts.map Prod.snd).sum
  if totalCards ≠ 100 then [deckSizeViolation totalCards] else []

/-- Violation pushed by the `singleton` rule for one offending name. -/
def singletonViolation (cardName : String) (count : Nat) : RuleViolation :=
  { ruleId := "singleton"
    ruleName := "Singleton Rule"
    message := "Found " ++ toString count ++ " copies of \"" ++ cardName ++
      "\". Only 1 copy allowed."
    severity := .error
    affectedCards := some [cardName] }

/-- Body of the `singleton` rule loop for one `Object.entries` pair: on
`count > 1`, look the name up (when a database is supplied), compute
`allowMultiple` (`false` when the record is absent), and push a violation
unless multiples are allowed. -/
def singletonStep (cardDb : Option (String → Option EdHCard))
    (p : String × Nat) : Option RuleViolation :=
  if 1 < p.2 then
    let card : Option EdHCard :=
      match cardDb with
      | some g => g p.1
      | none => none
    let allowMultiple : Bool :=
      match card with
      | some c => isBasicLand c || allowsMultipleCopies c
      | none => false
    if allowMultiple then none else some (singletonViolation p.1 p.2)
  else none

/-- The `singleton` rule check: iterate `Object.entries(cardCounts)` in
order, accumulating the pushed violations. -/
def singletonCheck (cardCounts : List (String × Nat))
    (cardDb : Option (String → Option EdHCard)) : List RuleViolation :=
  cardCounts.filterMap (singletonStep cardDb)

/-- Warning returned by `commander_check` when no database is supplied. -/
def commanderWarning : RuleViolation :=
  { ruleId := "commander_check"
    ruleName := "Commander Required"
    message := "Cannot verify commander without card database."
    severity := .warning
    affectedCards := none }

/-- Error returned by `commander_check` when no candidate is found. -/
def commanderError : RuleViolation :=
  { ruleId := "commander_check"
    ruleName := "Commander Required"
    message := "No valid commander found. Deck must contain a legendary creature or planeswalker."
    severity := .error
    affectedCards := none }

/-- The `commander_check` rule: without a database return the single
warning; otherwise collect the legal commanders among the deck names and
report an error exactly when there is none. -/
def commanderCheck (cardCounts : List (String × Nat))
    (cardDb : Option (String → Option EdHCard)) : List RuleViolation :=
  match cardDb with
  | none => [commanderWarning]
  | some g =>
    let possibleCommanders : List EdHCard :=
      cardCounts.filterMap (fun p =>
        match g p.1 with
        | some c => if isLegalCommander c then some c else none
        | none => none)
    if possibleCommanders.length = 0 then [commanderError] else []

/-- Outcome of an import run: the resulting store plus the
`imported` / `skipped` counters the importer reports. -/
structure ImportResult where
  store : List DbRow
  imported : Nat
  skipped : Nat

/-- Whole-array strategy of `importCardsFromJson` (the `else` branch): parse
everything, then per record skip only when `name` or `type_line` is falsy,
otherwise `insertCard`.  The per-record `try`/`catch` has no effect here
because the embedded `insertCard` is total on a connected store. -/
def importWhole (cards : List EdHCard) (db : List DbRow) : ImportResult :=
  cards.foldl
    (fun acc card =>
      if card.name = "" ∨ card.type_line = "" then
        { acc with skipped := acc.skipped + 1 }
      else
        { acc with
            store := insertCard card acc.store
            imported := acc.imported + 1 })
    { store := db, imported := 0, skipped := 0 }

/-- Streaming strategy (`streamJsonImport`): records arrive one at a time in
source order (the pause/resume backpressure serializes the writes); a record
is skipped when `name` or `type_line` is falsy, or when the lowercased type
line contains one of the non-playable markers; otherwise it is inserted. -/
def importStream (cards : List EdHCard) (db : List DbRow) : ImportResult :=
  cards.foldl
    (fun acc card =>
      if card.name = "" ∨ card.type_line = "" then
        { acc with skipped := acc.skipped + 1 }
      else if strIncludes (lowerStr card.type_line) "token" ||
          strIncludes (lowerStr card.type_line) "art card" ||
          strIncludes (lowerStr card.type_line) "emblem" then
        { acc with skipped := acc.skipped + 1 }
      else
        { acc with
            store := insertCard card acc.store
            imported := acc.imported + 1 })
    { store := db, imported := 0, skipped := 0 }

/-- Measured file size in megabytes: `stats.size / (1024 * 1024)`.  Exact
over `ℚ` because dividing an integer below 2^53 by a power of two is exact
in JS floating point. -/
def fileSizeMB (sizeBytes : Nat) : ℚ := (sizeBytes : ℚ) / (1024 * 1024)

/-- Strategy dispatch of `importCardsFromJson`: `if (fileSizeMB > 100)` use
the streaming import, otherwise the whole-array import. -/
def importCardsFromJson (sizeBytes : Nat) (cards : List EdHCard)
    (db : List DbRow) : ImportResult :=
  if fileSizeMB sizeBytes > 100 then importStream cards db
  else importWhole cards db

/-- Violations a rule output attributes to one card name. -/
def violationsFor (vs : List RuleViolation) (cardName : String) :
    List RuleViolation :=
  vs.filter (fun v => decide (v.affectedCards = some [cardName]))

/-- Decoding inverts encoding for string arrays. -/
theorem parseStrArr_stringifyStrArr (l : List String) :
    parseStrArr (stringifyStrArr l) = some l := by
  simp only [parseStrArr, stringifyStrArr]
  induction l with
  | nil => rfl
  | cons h t ih => simp [jsonToStrList, List.map_cons, ih]

/-- Decoding inverts encoding for string-valued objects. -/
theorem parseStrObj_stringifyStrObj (l : List (String × String)) :
    parseStrObj (stringifyStrObj l) = some l := by
  simp only [parseStrObj, stringifyStrObj]
  induction l with
  | nil => rfl
  | cons h t ih => simp [jsonToStrPairs, List.map_cons, ih]

/-- Reading back a row written from a card reproduces the card: the write
path serializes, the read path parses. -/
theorem rowToCard_mkRow (c : EdHCard) : rowToCard (mkRow c) = c := by
  cases c
  simp [rowToCard, mkRow, parseStrArr_stringifyStrArr, parseStrObj_stringifyStrObj]

/-- Scenario record with a missing `type_line` (modelled as `""`). -/
def cardMissingTypeLine : EdHCard :=
  { name := "Shapeless Blob", type_line := "", colors := [],
    color_identity := [], rarity := "common", legalities := [],
    mana_cost := none, cmc := none }

/-- Scenario record whose type line is a non-playable token marker. -/
def cardTokenCreature : EdHCard :=
  { name := "Storm Crow Figure", type_line := "Token Creature", colors := [],
    color_identity := [], rarity := "common", legalities := [],
    mana_cost := none, cmc := none }

/-- Scenario record that is a valid legendary creature card. -/
def cardLegendary : EdHCard :=
  { name := "Atraxa", type_line := "Legendary Creature - Phyrexian Angel",
    colors := ["W"], color_identity := ["W"], rarity := "mythic",
    legalities := [("commander", "legal")], mana_cost := none, cmc := none }

/-- C1 counterexample: a 3-record source (missing type line / token creature
/ valid legendary creature) at a small file size takes the whole-array
strategy of `importCardsFromJson`, and that strategy has no non-playable
marker filter, so the run imports 2 records and skips 1 (store count 2) —
not the claimed imported 1 / skipped 2 / count 1. -/
theorem c1_counterexample :
    (importCardsFromJson 1000
      [cardMissingTypeLine, cardTokenCreature, cardLegendary] []).imported = 2 ∧
    (importCardsFromJson 1000
      [cardMissingTypeLine, cardTokenCreature, cardLegendary] []).skipped = 1 ∧
    getCardCount (importCardsFromJson 1000
      [cardMissingTypeLine, cardTokenCreature, cardLegendary] []).store = 2 ∧
    ¬ ((importCardsFromJson 1000
        [cardMissingTypeLine, cardTokenCreature, cardLegendary] []).imported = 1 ∧
      (importCardsFromJson 1000
        [cardMissingTypeLine, cardTokenCreature, cardLegendary] []).skipped = 2 ∧
      getCardCount (importCardsFromJson 1000
        [cardMissingTypeLine, cardTokenCreature, cardLegendary] []).store = 1) := by
  have h : ¬ (fileSizeMB 1000 > 100) := by norm_num [fileSizeMB]
  simp only [importCardsFromJson, if_neg h]
  decide

/-- C1 amended: the non-playable marker filter exists only in the streaming
strategy.  On the 3-record scenario the whole-array strategy (taken by small
inputs) yields imported 2 / skipped 1 / count 2, while the streaming strategy
yields the claimed imported 1 / skipped 2 / count 1. -/
theorem c1_strategies_differ_on_scenario :
    (importWhole [cardMissingTypeLine, cardTokenCreature, cardLegendary] []).imported = 2 ∧
    (importWhole [cardMissingTypeLine, cardTokenCreature, cardLegendary] []).skipped = 1 ∧
    getCardCount (importWhole [cardMissingTypeLine, cardTokenCreature, cardLegendary] []).store = 2 ∧
    (importStream [cardMissingTypeLine, cardTokenCreature, cardLegendary] []).imported = 1 ∧
    (importStream [cardMissingTypeLine, cardTokenCreature, cardLegendary] []).skipped = 2 ∧
    getCardCount (importStream [cardMissingTypeLine, cardTokenCreature, cardLegendary] []).store = 1 := by
  decide

/-- Record with a present name but an empty (falsy) type line. -/
def cardEmptyTypeLine : EdHCard :=
  { name := "Sol Ring", type_line := "", colors := [], color_identity := [],
    rarity := "uncommon", legalities := [("commander", "legal")],
    mana_cost := none, cmc := none }

/-- C2 counterexample: `insertCard` on a record with an empty `type_line`
succeeds and persists the record (count reaches 1 and the record is
retrievable, its stored type line being the substituted empty string) — it
does not fail, contradicting the claimed `InvalidRecord` rejection. -/
theorem c2_counterexample :
    getCardCount (insertCard cardEmptyTypeLine []) = 1 ∧
    (getCard (insertCard cardEmptyTypeLine []) "sol ring").isSome = true ∧
    (getCard (insertCard cardEmptyTypeLine []) "sol ring").map
      (fun c => c.type_line) = some "" := by
  decide

/-- C2 amended: `insertCard` performs no validation at all — a record whose
`type_line` is empty or missing is persisted (with the empty string
substituted by `card.type_line || ''`), and is subsequently returned by
`getCard`; no `InvalidRecord` failure exists in the code. -/
theorem c2_insert_no_validation (card : EdHCard) (h : card.type_line = "") :
    getCardCount (insertCard card []) = 1 ∧
    getCard (insertCard card []) card.name = some card ∧
    (getCard (insertCard card []) card.name).map (fun c => c.type_line) =
      some "" := by
  have hmain : getCard (insertCard card []) card.name = some card := by
    have h1 : insertCard card [] = [mkRow card] := by simp [insertCard]
    have h3 : List.find?
        (fun r => decide (lowerStr r.name = lowerStr card.name))
        [mkRow card] = some (mkRow card) := by
      have h2 : lowerStr (mkRow card).name = lowerStr card.name := by
        simp [mkRow]
      simp [List.find?, h2]
    rw [getCard, h1, h3]
    simp [rowToCard_mkRow]
  exact ⟨by simp [getCardCount, insertCard], hmain, by rw [hmain]; simp [h]⟩

/-- C2 witness: the amended statement at the concrete empty-type-line
record. -/
theorem c2_witness :
    getCardCount (insertCard cardEmptyTypeLine []) = 1 ∧
    getCard (insertCard cardEmptyTypeLine []) cardEmptyTypeLine.name =
      some cardEmptyTypeLine ∧
    (getCard (insertCard cardEmptyTypeLine []) cardEmptyTypeLine.name).map
      (fun c => c.type_line) = some "" :=
  c2_insert_no_validation cardEmptyTypeLine (by decide)

/-- Threshold comparison in bytes: `fileSizeMB size > 100` is exactly
`size > 104857600`. -/
theorem fileSizeMB_gt_iff (s : ℕ) : fileSizeMB s > 100 ↔ 104857600 < s := by
  rw [fileSizeMB, gt_iff_lt, lt_div_iff₀ (by norm_num : (0:ℚ) < 1024 * 1024)]
  rw [show (100:ℚ) * (1024 * 1024) = ((104857600 : ℕ) : ℚ) by norm_num]
  exact_mod_cast Nat.cast_lt

/-- C5 counterexample: an input of exactly 100 MB (104857600 bytes) is *at*
the threshold, but the importer takes the whole-array strategy, observably:
it imports a token record that the streaming strategy skips. -/
theorem c5_counterexample :
    (importCardsFromJson 104857600 [cardTokenCreature] []).imported = 1 ∧
    (importCardsFromJson 104857600 [cardTokenCreature] []).skipped = 0 ∧
    (importStream [cardTokenCreature] []).imported = 0 ∧
    (importStream [cardTokenCreature] []).skipped = 1 := by
  have h : ¬ (fileSizeMB 104857600 > 100) := by norm_num [fileSizeMB]
  simp only [importCardsFromJson, if_neg h]
  decide

/-- C5 amended: the importer streams only for inputs *strictly above* 100 MB
(104857600 bytes); at or below that size it loads and parses the whole
input at once. -/
theorem c5_threshold (sizeBytes : ℕ) (cards : List EdHCard) (db : List DbRow) :
    (104857600 < sizeBytes →
      importCardsFromJson sizeBytes cards db = importStream cards db) ∧
    (sizeBytes ≤ 104857600 →
      importCardsFromJson sizeBytes cards db = importWhole cards db) := by
  constructor
  · intro h
    simp only [importCardsFromJson, if_pos ((fileSizeMB_gt_iff sizeBytes).mpr h)]
  · intro h
    have hn : ¬ (fileSizeMB sizeBytes > 100) := fun hgt =>
      absurd ((fileSizeMB_gt_iff sizeBytes).mp hgt) (Nat.not_lt.mpr h)
    simp only [importCardsFromJson, if_neg hn]

/-- C5 witness: the amended dispatch at one byte above and exactly at the
threshold. -/
theorem c5_witness :
    importCardsFromJson 104857601 [cardTokenCreature] [] =
      importStream [cardTokenCreature] [] ∧
    importCardsFromJson 104857600 [cardTokenCreature] [] =
      importWhole [cardTokenCreature] [] :=
  ⟨(c5_threshold 104857601 [cardTokenCreature] []).1 (by decide),
   (c5_threshold 104857600 [cardTokenCreature] []).2 (by decide)⟩

/-- Record stored first, with an all-uppercase name. -/
def cardPlainsUpper : EdHCard :=
  { name := "PLAINS", type_line := "Basic Land - Plains", colors := [],
    color_identity := ["W"], rarity := "common",
    legalities := [("commander", "legal")], mana_cost := none, cmc := none }

/-- Record upserted second, whose name differs from the first only in
letter case (and whose other fields differ observably). -/
def cardPlainsMixed : EdHCard :=
  { name := "Plains", type_line := "Sorcery", colors := [],
    color_identity := [], rarity := "rare", legalities := [],
    mana_cost := none, cmc := none }

/-- C3 counterexample: upserting "Plains" over an existing "PLAINS" does not
replace it — the count rises from 1 to 2, and a name lookup afterwards
returns the earlier "PLAINS" row, not the later record. -/
theorem c3_counterexample :
    getCardCount (insertCard cardPlainsUpper []) = 1 ∧
    getCardCount (insertCard cardPlainsMixed (insertCard cardPlainsUpper [])) = 2 ∧
    (getCard (insertCard cardPlainsMixed (insertCard cardPlainsUpper []))
      "Plains").map (fun c => c.name) = some "PLAINS" := by
  decide

/-- C3 amended: the table's PRIMARY KEY uses the default BINARY collation,
so the store keeps exactly one live record per *exact* name, not per
case-folded name.  Upserting the byte-equal name replaces (count unchanged);
upserting a name that differs only in case adds a second row (count + 1),
and `getCard` — whose comparison *is* case-insensitive — then returns the
earliest-inserted case variant. -/
theorem c3_exact_name_identity (c c' : EdHCard) (db : List DbRow) :
    (c'.name = c.name →
      getCardCount (insertCard c' (insertCard c db)) =
        getCardCount (insertCard c db)) ∧
    (c'.name ≠ c.name → (∀ r ∈ db, r.name ≠ c'.name) →
      getCardCount (insertCard c' (insertCard c db)) =
        getCardCount (insertCard c db) + 1) ∧
    (c'.name ≠ c.name → lowerStr c'.name = lowerStr c.name →
      getCard (insertCard c' (insertCard c [])) c'.name =
        some (rowToCard (mkRow c))) := by
  refine ⟨?_, ?_, ?_⟩
  · intro h
    simp only [insertCard, getCardCount, List.filter_append,
      List.length_append, h]
    have h1 : List.filter (fun r => decide (r.name ≠ c.name))
        (List.filter (fun r => decide (r.name ≠ c.name)) db) =
        List.filter (fun r => decide (r.name ≠ c.name)) db := by
      rw [List.filter_filter]
      simp
    have h2 : List.filter (fun r => decide (r.name ≠ c.name)) [mkRow c] = [] := by
      simp [mkRow]
    rw [h1, h2]
    simp
  · intro h hdb
    simp only [insertCard, getCardCount, List.filter_append,
      List.length_append]
    have h1 : List.filter (fun r => decide (r.name ≠ c'.name))
        (List.filter (fun r => decide (r.name ≠ c.name)) db) =
        List.filter (fun r => decide (r.name ≠ c.name)) db := by
      refine List.filter_eq_self.mpr ?_
      intro r hr
      exact decide_eq_true (hdb r (List.mem_of_mem_filter hr))
    have h2 : List.filter (fun r => decide (r.name ≠ c'.name)) [mkRow c] =
        [mkRow c] := by
      simp [mkRow, Ne.symm h]
    rw [h1, h2]
    simp [Nat.add_assoc]
  · intro h hl
    have h1 : insertCard c' (insertCard c []) = [mkRow c, mkRow c'] := by
      simp [insertCard, mkRow, Ne.symm h]
    have h2 : List.find?
        (fun r => decide (lowerStr r.name = lowerStr c'.name))
        [mkRow c, mkRow c'] = some (mkRow c) := by
      have hstep : lowerStr (mkRow c).name = lowerStr c'.name := by
        simp [mkRow, hl.symm]
      simp [List.find?, hstep]
    rw [getCard, h1, h2]
    simp

/-- C3 witness: the amended behaviour at the concrete PLAINS / Plains
pair. -/
theorem c3_witness :
    getCardCount (insertCard cardPlainsMixed (insertCard cardPlainsUpper [])) =
      getCardCount (insertCard cardPlainsUpper []) + 1 ∧
    getCard (insertCard cardPlainsMixed (insertCard cardPlainsUpper []))
      cardPlainsMixed.name = some (rowToCard (mkRow cardPlainsUpper)) :=
  ⟨((c3_exact_name_identity cardPlainsUpper cardPlainsMixed []).2.1
      (by decide) (by simp)),
   ((c3_exact_name_identity cardPlainsUpper cardPlainsMixed []).2.2
      (by decide) (by decide))⟩

/-- C8 counterexample: with a case-variant row already in the store,
upserting "Plains" and reading it back via the case variant "plains"
returns the *earlier* "PLAINS" row (type line "Basic Land - Plains"),
not a record equivalent to the one just stored (type line "Sorcery"). -/
theorem c8_counterexample :
    (getCard (insertCard cardPlainsMixed (insertCard cardPlainsUpper []))
      "plains").map (fun c => c.type_line) = some "Basic Land - Plains" ∧
    cardPlainsMixed.type_line = "Sorcery" ∧
    getCard (insertCard cardPlainsMixed (insertCard cardPlainsUpper []))
      "plains" ≠ some cardPlainsMixed := by
  decide

/-- C8 amended: the upsert-then-lookup round trip holds *provided* the store
holds no other row whose case-folded name coincides with the record's: then
`getCard` on any case variant of the name returns exactly the stored record,
with `colors`, `color_identity` and `legalities` as structured (parsed)
values.  When a case-variant row pre-exists, the earlier row is returned
instead (see the counterexample). -/
theorem c8_roundtrip (card : EdHCard) (db : List DbRow) (q : String)
    (_hname : card.name ≠ "") (_htype : card.type_line ≠ "")
    (hdb : ∀ r ∈ db, lowerStr r.name = lowerStr card.name →
      r.name = card.name)
    (hq : lowerStr q = lowerStr card.name) :
    getCard (insertCard card db) q = some card := by
  have hnone : List.find?
      (fun r => decide (lowerStr r.name = lowerStr q))
      (db.filter (fun r => decide (r.name ≠ card.name))) = none := by
    refine List.find?_eq_none.mpr ?_
    intro r hr
    simp only [decide_eq_true_eq]
    intro hmatch
    have hrdb : r ∈ db := List.mem_of_mem_filter hr
    have hne : r.name ≠ card.name := by
      have := List.of_mem_filter hr
      simpa using this
    exact hne (hdb r hrdb (by rw [← hq]; exact hmatch))
  have hlast : List.find?
      (fun r => decide (lowerStr r.name = lowerStr q)) [mkRow card] =
      some (mkRow card) := by
    have hstep : lowerStr (mkRow card).name = lowerStr q := by
      simp [mkRow, hq.symm]
    simp [List.find?, hstep]
  rw [getCard, insertCard, List.find?_append, hnone, Option.none_or, hlast]
  simp [rowToCard_mkRow]

/-- Record used to witness the round trip on a collision-free store. -/
def cardSolRing : EdHCard :=
  { name := "Sol Ring", type_line := "Artifact", colors := [],
    color_identity := [], rarity := "uncommon",
    legalities := [("commander", "legal")], mana_cost := none, cmc := none }

/-- C8 witness: the amended round trip at a concrete record and a concrete
case variant of its name, starting from the empty store. -/
theorem c8_witness :
    getCard (insertCard cardSolRing []) "sOL rING" = some cardSolRing :=
  c8_roundtrip cardSolRing [] "sOL rING" (by decide) (by decide)
    (by simp) (by decide)

/-- C7: the deck-size rule returns no violation exactly when the counts sum
to 100; otherwise it returns exactly one error violation whose message
contains the actual total. -/
theorem c7_deck_size (cardCounts : List (String × Nat)) :
    ((cardCounts.map Prod.snd).sum = 100 → deckSizeCheck cardCounts = []) ∧
    ((cardCounts.map Prod.snd).sum ≠ 100 →
      deckSizeCheck cardCounts =
        [deckSizeViolation ((cardCounts.map Prod.snd).sum)] ∧
      (deckSizeViolation ((cardCounts.map Prod.snd).sum)).severity =
        Severity.error ∧
      (toString ((cardCounts.map Prod.snd).sum)).data <:+:
        (deckSizeViolation ((cardCounts.map Prod.snd).sum)).message.data) := by
  constructor
  · intro h
    simp [deckSizeCheck, h]
  · intro h
    refine ⟨by simp [deckSizeCheck, h], rfl, ?_⟩
    refine ⟨"Deck must contain exactly 100 cards. Found ".data,
      " cards.".data, ?_⟩
    simp [deckSizeViolation, String.data_append, List.append_assoc]

/-- C7 witness: both branches at concrete count maps (sum 100 and sum 99). -/
theorem c7_witness :
    deckSizeCheck [("plains", 100)] = [] ∧
    deckSizeCheck [("plains", 99)] = [deckSizeViolation 99] :=
  ⟨(c7_deck_size [("plains", 100)]).1 (by decide),
   ((c7_deck_size [("plains", 99)]).2 (by decide)).1⟩

/-- C9: with the lookup capability unavailable, the commander rule returns
exactly the one warning-severity violation, for every count map. -/
theorem c9_commander_warning (cardCounts : List (String × Nat)) :
    commanderCheck cardCounts none = [commanderWarning] ∧
    commanderWarning.severity = Severity.warning :=
  ⟨rfl, rfl⟩

/-- C10: without the lookup capability the singleton rule treats every name
with count above 1 as non-exempt, producing one error violation per such
name (never a single downgraded warning). -/
theorem c10_singleton_without_db (cardCounts : List (String × Nat)) :
    singletonCheck cardCounts none =
      (cardCounts.filter (fun p => decide (1 < p.2))).map
        (fun p => singletonViolation p.1 p.2) ∧
    (singletonCheck cardCounts none).all
      (fun v => decide (v.severity = Severity.error)) = true := by
  have heq : singletonCheck cardCounts none =
      (cardCounts.filter (fun p => decide (1 < p.2))).map
        (fun p => singletonViolation p.1 p.2) := by
    induction cardCounts with
    | nil => rfl
    | cons p rest ih =>
      simp only [singletonCheck] at ih ⊢
      rw [List.filterMap_cons]
      by_cases hp : 1 < p.2
      · have hs : singletonStep none p = some (singletonViolation p.1 p.2) := by
          simp [singletonStep, hp]
        rw [hs]
        simp [List.filter_cons, hp, ih]
      · have hs : singletonStep none p = none := by
          simp [singletonStep, hp]
        rw [hs]
        simp [List.filter_cons, hp, ih]
  refine ⟨heq, ?_⟩
  rw [heq]
  refine List.all_eq_true.mpr ?_
  intro v hv
  obtain ⟨p, hp, rfl⟩ := List.mem_map.mp hv
  rfl

/-- Violations pushed by the singleton loop are attributed to the entry's
key name. -/
theorem singletonStep_affected (db : Option (String → Option EdHCard))
    (p : String × Nat) (v : RuleViolation)
    (h : singletonStep db p = some v) : v.affectedCards = some [p.1] := by
  simp only [singletonStep] at h
  split at h
  · split at h
    · exact absurd h (by simp)
    · cases h
      rfl
  · exact absurd h (by simp)

/-- Under pairwise-distinct keys, the violations the singleton rule
attributes to one name are exactly the contribution of that name's entry. -/
theorem violationsFor_singletonCheck (counts : List (String × Nat))
    (db : Option (String → Option EdHCard)) (name : String) (count : Nat)
    (hmem : (name, count) ∈ counts)
    (hnd : (counts.map Prod.fst).Nodup) :
    violationsFor (singletonCheck counts db) name =
      (singletonStep db (name, count)).toList := by
  induction counts with
  | nil => cases hmem
  | cons p rest ih =>
    rw [List.map_cons] at hnd
    have hnotin : p.1 ∉ rest.map Prod.fst := (List.nodup_cons.mp hnd).1
    have hnd' : (rest.map Prod.fst).Nodup := (List.nodup_cons.mp hnd).2
    by_cases hp : p.1 = name
    · have hpe : p = (name, count) := by
        rcases List.mem_cons.mp hmem with h | h
        · exact h.symm
        · exfalso
          apply hnotin
          rw [hp]
          exact List.mem_map.mpr ⟨(name, count), h, rfl⟩
      subst hpe
      have hrest : violationsFor (singletonCheck rest db) name = [] := by
        refine List.filter_eq_nil_iff.mpr ?_
        intro v hv
        obtain ⟨q, hq, hstep⟩ := List.mem_filterMap.mp hv
        have haff := singletonStep_affected db q v hstep
        have hqname : q.1 ≠ name := by
          intro hcontra
          exact hnotin (hcontra ▸ List.mem_map.mpr ⟨q, hq, rfl⟩)
        simp [haff, hqname]
      cases hstep : singletonStep db (name, count) with
      | none =>
        simpa [violationsFor, singletonCheck, List.filterMap_cons, hstep]
          using hrest
      | some v =>
        have hv : v.affectedCards = some [name] := by
          simpa using singletonStep_affected db (name, count) v hstep
        have := hrest
        simp only [violationsFor, singletonCheck] at this ⊢
        simp [List.filterMap_cons, hstep, List.filter_cons, hv, this]
    · have hmem' : (name, count) ∈ rest := by
        rcases List.mem_cons.mp hmem with h | h
        · exact absurd (congrArg Prod.fst h.symm) hp
        · exact h
      have hih := ih hmem' hnd'
      cases hstep : singletonStep db p with
      | none =>
        simpa [violationsFor, singletonCheck, List.filterMap_cons, hstep]
          using hih
      | some v =>
        have hv : v.affectedCards = some [p.1] :=
          singletonStep_affected db p v hstep
        simp only [violationsFor, singletonCheck] at hih ⊢
        simp [List.filterMap_cons, hstep, List.filter_cons, hv, hp, hih]

/-- Guard-free characterization of `isBasicLand`: the empty-type-line guard
is subsumed by the substring tests. -/
theorem isBasicLand_eq (c : EdHCard) :
    isBasicLand c = (strIncludes (lowerStr c.type_line) "basic" &&
      strIncludes (lowerStr c.type_line) "land") := by
  unfold isBasicLand
  split
  · rename_i h
    rw [h]
    decide
  · rfl

/-- C6: for a name with count above 1 (distinct keys), the singleton rule
raises exactly one error violation for that name when its record is absent
or non-exempt, and none when the record is a basic land (type line contains
"basic" and "land", case-insensitively) or its name is on the fixed
allow-list; the violation names the card and its count. -/
theorem c6_singleton_rule (counts : List (String × Nat))
    (g : String → Option EdHCard) (name : String) (count : Nat)
    (hmem : (name, count) ∈ counts) (hcount : 1 < count)
    (hnd : (counts.map Prod.fst).Nodup) :
    (g name = none →
      violationsFor (singletonCheck counts (some g)) name =
        [singletonViolation name count]) ∧
    (∀ c, g name = some c →
      (strIncludes (lowerStr c.type_line) "basic" &&
          strIncludes (lowerStr c.type_line) "land" ||
        multipleAllowed.contains (lowerStr c.name)) = true →
      violationsFor (singletonCheck counts (some g)) name = []) ∧
    (∀ c, g name = some c →
      (strIncludes (lowerStr c.type_line) "basic" &&
          strIncludes (lowerStr c.type_line) "land" ||
        multipleAllowed.contains (lowerStr c.name)) = false →
      violationsFor (singletonCheck counts (some g)) name =
        [singletonViolation name count]) ∧
    (singletonViolation name count).severity = Severity.error ∧
    (singletonViolation name count).message =
      "Found " ++ toString count ++ " copies of \"" ++ name ++
        "\". Only 1 copy allowed." := by
  have hc := violationsFor_singletonCheck counts (some g) name count hmem hnd
  refine ⟨?_, ?_, ?_, rfl, rfl⟩
  · intro hg
    rw [hc]
    simp [singletonStep, hcount, hg]
  · intro c hg hex
    rw [hc]
    have hallow : (isBasicLand c || allowsMultipleCopies c) = true := by
      rw [isBasicLand_eq]
      exact hex
    simp [singletonStep, hcount, hg, allowsMultipleCopies] at hallow ⊢
    simp [hallow]
  · intro c hg hex
    rw [hc]
    have hallow : (isBasicLand c || allowsMultipleCopies c) = false := by
      rw [isBasicLand_eq]
      exact hex
    simp [singletonStep, hcount, hg, allowsMultipleCopies] at hallow ⊢
    simp [hallow]

/-- Lookup result used by the singleton-rule witness: a plain instant. -/
def demoBolt : EdHCard :=
  { name := "Lightning Bolt", type_line := "Instant", colors := ["R"],
    color_identity := ["R"], rarity := "common",
    legalities := [("commander", "legal")], mana_cost := none, cmc := none }

/-- Lookup result used by the singleton-rule witness: an allow-listed
creature. -/
def demoRats : EdHCard :=
  { name := "Relentless Rats", type_line := "Creature - Rat", colors := ["B"],
    color_identity := ["B"], rarity := "uncommon",
    legalities := [("commander", "legal")], mana_cost := none, cmc := none }

/-- Count map used by the singleton-rule witness. -/
def demoCounts : List (String × Nat) :=
  [("relentless rats", 20), ("lightning bolt", 4)]

/-- Catalog lookup used by the singleton-rule witness. -/
def demoLookup : String → Option EdHCard := fun n =>
  if n = "lightning bolt" then some demoBolt
  else if n = "relentless rats" then some demoRats
  else none

/-- C6 witness: the non-exempt case of the singleton rule at a concrete
count map and lookup. -/
theorem c6_witness :
    violationsFor (singletonCheck demoCounts (some demoLookup))
      "lightning bolt" = [singletonViolation "lightning bolt" 4] :=
  ((c6_singleton_rule demoCounts demoLookup "lightning bolt" 4 (by decide)
    (by decide) (by decide)).2.2.1) demoBolt (by decide) (by decide)
